import Mathlib

/-!
# EkoWiki: role gate, record engine and schema reflection

A shallow embedding of `main.go`.  Handlers become pure functions over an
explicit request context, session and database value.  The collaborators that
live outside the repository (the ORM, the form binder, the template engine,
the SQL engine's `LIKE`) are represented by small explicit definitions or by
parameters, each documented where it is introduced.
-/

namespace EkoWiki

/-! ## Data model -/

/-- The embedded `gorm.Model`: its own (shadowed) id, the two timestamps and the
soft-delete mark.  Times are seconds on an abstract clock. -/
structure GormModel where
  ID : Nat
  CreatedAt : Nat
  UpdatedAt : Nat
  DeletedAt : Option Nat
  deriving DecidableEq, Repr

/-- The `User` struct of `main.go`, fields in declaration order. -/
structure User where
  ID : Nat
  FirstName : String
  LastName : String
  Pseudonym : String
  Mail : String
  RoleRequested : String
  Role : String
  Password : String
  Model : GormModel
  deriving DecidableEq, Repr

/-- The `Article` struct of `main.go`, fields in declaration order. -/
structure Article where
  ID : Nat
  Title : String
  Summary : String
  Content : String
  Category : String
  Private : Int
  AuthorID : Nat
  Author : User
  Model : GormModel
  deriving DecidableEq, Repr

/-- Zero value of `gorm.Model`. -/
def GormModel.zero : GormModel := ⟨0, 0, 0, none⟩

/-- Zero value of `User` (what `var record User` holds). -/
def User.zero : User := ⟨0, "", "", "", "", "", "", "", GormModel.zero⟩

/-- Zero value of `Article` (what `var record Article` holds). -/
def Article.zero : Article := ⟨0, "", "", "", "", 0, 0, User.zero, GormModel.zero⟩

/-! ## Role constants and the role maps -/

def Visitor : Nat := 0
def Member : Nat := 1
def Editor : Nat := 2
def EditorInChief : Nat := 3
def Admin : Nat := 4

/-- Indexing a Go `map[string]uint` literal: the value stored under the key, and the
zero value `0` when the key is absent. -/
def mapIndex (m : List (String × Nat)) (key : String) : Nat :=
  (m.lookup key).getD 0

/-- The map literal `roleLevel` built inside `AuthMiddleware`. -/
def roleLevel : List (String × Nat) :=
  [("Visitor", Visitor), ("Member", Member), ("Contributor", Editor),
   ("Editor", EditorInChief), ("Admin", Admin)]

/-- The map literal `roleMap` built inside `getArticles`. -/
def roleMap : List (String × Nat) :=
  [("Visitor", Visitor), ("Member", Member), ("Contributor", Editor),
   ("Editor", EditorInChief), ("Admin", Admin)]

/-! ## Request context, session and database -/

/-- The part of `gin.Context` the handlers touch: the `currentUser` key, the response
status and body written so far, and the abort flag. -/
structure Context where
  currentUser : Option User
  status : Option Nat
  body : String
  aborted : Bool
  deriving DecidableEq, Repr

/-- A fresh request context: no key set, nothing written. -/
def Context.fresh : Context := ⟨none, none, "", false⟩

/-- Model of `c.String(code, msg)`: set the status and write the message. -/
def Context.String (c : Context) (code : Nat) (msg : String) : Context :=
  { c with status := some code, body := c.body ++ msg }

/-- Model of `c.Abort()`. -/
def Context.Abort (c : Context) : Context := { c with aborted := true }

/-- Model of `c.Set("currentUser", user)`. -/
def Context.Set (c : Context) (user : User) : Context := { c with currentUser := some user }

/-- The cookie session: the only key the program uses is `userID`. -/
structure Session where
  userID : Option Nat
  deriving DecidableEq, Repr

/-- The two tables of the database, each as the list of its rows. -/
structure DB where
  users : List User
  articles : List Article
  deriving DecidableEq, Repr

/-- Rows a query can see: the soft-delete mark of the embedded model is unset. -/
def User.live (u : User) : Bool := u.Model.DeletedAt.isNone

/-- Rows a query can see: the soft-delete mark of the embedded model is unset. -/
def Article.live (a : Article) : Bool := a.Model.DeletedAt.isNone

/-- Model of `DB.First(&user, userID)` with a numeric key: the visible row whose primary
key is `userID`; `none` stands for the returned error. -/
def dbFirstUser (db : DB) (userID : Nat) : Option User :=
  db.users.find? (fun u => u.live && u.ID == userID)

/-! ## Authorization gate -/

/-- The handler returned by `AuthMiddleware(requiredRole)`.  The argument `next` is the rest
of the handler chain, run by `c.Next()`. -/
def AuthMiddleware (requiredRole : Nat) (db : DB) (session : Session)
    (next : Context → Context) (c : Context) : Context :=
  match session.userID with
  | none => (c.String 401 "Unauthorized: Please login").Abort
  | some userID =>
    match dbFirstUser db userID with
    | none => (c.String 401 "Unauthorized: Invalid session").Abort
    | some user =>
      let userRole := mapIndex roleLevel user.Role
      if userRole < requiredRole then
        (c.String 403 "Forbidden: Insufficient role").Abort
      else
        next (c.Set user)

/-- Model of the handler returned by `LoadUser()`. -/
def LoadUser (db : DB) (session : Session) (next : Context → Context) (c : Context) : Context :=
  match session.userID with
  | none => next c
  | some userID =>
    match dbFirstUser db userID with
    | some user => next (c.Set user)
    | none => next c

/-! ## Article listing -/

/-- SQL `lower(x)` of the engine: upper-case ASCII letters are folded, every other
character is kept. -/
def lower (s : String) : String := ⟨s.data.map Char.toLower⟩

/-- The ordering `lower(category) ASC, created_at DESC` as a comparison of two rows
(text compared by code points, which is the engine's byte-wise order on UTF-8). -/
def listingOrder (a b : Article) : Bool :=
  decide ((lower a.Category).data < (lower b.Category).data) ||
    ((lower a.Category == lower b.Category) && decide (b.Model.CreatedAt ≤ a.Model.CreatedAt))

/-- The ordering `created_at DESC`. -/
def latestOrder (a b : Article) : Bool := decide (b.Model.CreatedAt ≤ a.Model.CreatedAt)

/-- Role used by `getArticles`: `Visitor` unless `currentUser` is set, then the `roleMap`
entry of the user's `Role`. -/
def listingRole (c : Context) : Nat :=
  match c.currentUser with
  | some user => mapIndex roleMap user.Role
  | none => Visitor

/-- The slice `articles` filled by `query.Find(&articles)`.  The chained `Where` calls are a
conjunction; `like text pattern` stands for the engine's `text LIKE pattern`.  Rows that
compare equal under the ordering keep their table order. -/
def fetchArticles (like : String → String → Bool) (db : DB) (userRole : Nat)
    (search : String) : List Article :=
  let rows := db.articles.filter Article.live
  let rows := if userRole = Visitor then rows.filter (fun a => a.Private == 0) else rows
  let rows :=
    if search ≠ "" then
      rows.filter (fun a =>
        like a.Title ("%" ++ search ++ "%") || like a.Summary ("%" ++ search ++ "%") ||
          like a.Content ("%" ++ search ++ "%"))
    else rows
  rows.insertionSort (fun a b => listingOrder a b = true)

/-- The slice `latestArticles`: empty when a search term is given, otherwise the five
newest visible rows, with the same visitor filter. -/
def fetchLatest (db : DB) (userRole : Nat) (search : String) : List Article :=
  if search = "" then
    let rows := db.articles.filter Article.live
    let rows := if userRole = Visitor then rows.filter (fun a => a.Private == 0) else rows
    (rows.insertionSort (fun a b => latestOrder a b = true)).take 5
  else []

/-- One element of a group of `grouped_articles`. -/
structure GroupedEntry where
  ID : Nat
  Title : String
  Summary : String
  Category : String
  CreatedAt : String
  deriving DecidableEq, Repr

/-- One element of `latest_articles`. -/
structure LatestEntry where
  ID : Nat
  Title : String
  Summary : String
  CreatedAt : String
  deriving DecidableEq, Repr

/-- The map literal appended in the grouping loop; `fmt` stands for
`CreatedAt.Format("2006-01-02 15:04")`. -/
def groupedEntry (fmt : Nat → String) (article : Article) : GroupedEntry :=
  ⟨article.ID, article.Title, article.Summary, article.Category, fmt article.Model.CreatedAt⟩

/-- The map literal appended in the latest-articles loop. -/
def latestEntry (fmt : Nat → String) (article : Article) : LatestEntry :=
  ⟨article.ID, article.Title, article.Summary, fmt article.Model.CreatedAt⟩

/-- One step `m[key] = append(m[key], e)` on a `map[string][]E` kept as a list of
key/group pairs with distinct keys. -/
def groupAppend {E : Type} (m : List (String × List E)) (key : String) (e : E) :
    List (String × List E) :=
  match m with
  | [] => [(key, [e])]
  | (k, es) :: rest =>
    if k = key then (k, es ++ [e]) :: rest else (k, es) :: groupAppend rest key e

/-- The grouping loop of `getArticles`. -/
def groupArticles (fmt : Nat → String) (articles : List Article) :
    List (String × List GroupedEntry) :=
  articles.foldl (fun m article => groupAppend m article.Category (groupedEntry fmt article)) []

/-- The template context built by `getArticles`. -/
structure ListingContext where
  grouped_articles : List (String × List GroupedEntry)
  latest_articles : List LatestEntry
  search_query : String
  currentUser : Option User
  deriving DecidableEq, Repr

/-- The template context `getArticles` builds for a request context `c` and the query
parameter `search`. -/
def getArticlesContext (like : String → String → Bool) (fmt : Nat → String) (db : DB)
    (search : String) (c : Context) : ListingContext :=
  let userRole := listingRole c
  { grouped_articles := groupArticles fmt (fetchArticles like db userRole search)
    latest_articles := (fetchLatest db userRole search).map (latestEntry fmt)
    search_query := search
    currentUser := c.currentUser }

/-- The handler `getArticles`; `render` stands for loading and executing the template. -/
def getArticles (like : String → String → Bool) (fmt : Nat → String)
    (render : ListingContext → String) (db : DB) (search : String) (c : Context) : Context :=
  c.String 200 (render (getArticlesContext like fmt db search c))

/-! ## Requests and form binding -/

/-- Form data as the sequence of its `key=value` pairs. -/
abbrev Form := List (String × String)

/-- The form data of a request: the URL query and the posted body. -/
structure Request where
  query : Form
  postForm : Form
  deriving DecidableEq, Repr

/-- Model of `c.PostForm(key)`: the first posted value of the key, `""` when there is none. -/
def Request.PostForm (req : Request) (key : String) : String :=
  (req.postForm.lookup key).getD ""

/-- The merged form the binder reads (`req.Form`): posted values come before query values. -/
def Request.Form (req : Request) : Form := req.postForm ++ req.query

/-- Value of a non-empty run of decimal digits. -/
def parseDigits (cs : List Char) : Option Nat :=
  if cs ≠ [] ∧ cs.all Char.isDigit = true then
    some (cs.foldl (fun n ch => 10 * n + (ch.toNat - 48)) 0)
  else none

/-- Model of `strconv.ParseInt(s, 10, 64)` and `strconv.Atoi`: an optional sign, then decimal
digits, the value within 64 bits; `none` stands for the returned error. -/
def parseInt (s : String) : Option Int :=
  let signed : Option Int :=
    match s.data with
    | '+' :: ds => (parseDigits ds).map Int.ofNat
    | '-' :: ds => (parseDigits ds).map (fun n => - Int.ofNat n)
    | ds => (parseDigits ds).map Int.ofNat
  match signed with
  | some n => if -(2 ^ 63 : Int) ≤ n ∧ n < 2 ^ 63 then some n else none
  | none => none

/-- The binder on a string field: the first value under the field's form name when the form
has that key, the old value otherwise. -/
def bindString (form : Form) (key : String) (old : String) : String :=
  (form.lookup key).getD old

/-- The binder on an `int` field: untouched when the key is absent, `""` read as `0`, a
parse failure is the binding error. -/
def bindInt (form : Form) (key : String) (old : Int) : Except String Int :=
  match form.lookup key with
  | none => .ok old
  | some val =>
    match parseInt (if val = "" then "0" else val) with
    | some n => .ok n
    | none => .error ("strconv.ParseInt: parsing \"" ++ val ++ "\": invalid syntax")

/-- The form binder on a `User`, fields in declaration order: `ID` is tagged `form:"-"`, the
string fields are bound under their form names.  The embedded `gorm.Model` is declared outside
the repository; `bindModel` is the binder's action on it. -/
def bindUser (bindModel : Form → GormModel → Except String GormModel) (form : Form)
    (record : User) : Except String User :=
  let record := { record with
    FirstName := bindString form "FirstName" record.FirstName
    LastName := bindString form "LastName" record.LastName
    Pseudonym := bindString form "Pseudonym" record.Pseudonym
    Mail := bindString form "Mail" record.Mail
    RoleRequested := bindString form "RoleRequested" record.RoleRequested
    Role := bindString form "Role" record.Role
    Password := bindString form "Password" record.Password }
  match bindModel form record.Model with
  | .error err => .error err
  | .ok model => .ok { record with Model := model }

/-- The form binder on an `Article`, fields in declaration order: `ID`, `AuthorID` and
`Author` are tagged `form:"-"`, `Private` is bound under `PrivateSelect`. -/
def bindArticle (bindModel : Form → GormModel → Except String GormModel) (form : Form)
    (record : Article) : Except String Article :=
  let record := { record with
    Title := bindString form "Title" record.Title
    Summary := bindString form "Summary" record.Summary
    Content := bindString form "Content" record.Content
    Category := bindString form "Category" record.Category }
  match bindInt form "PrivateSelect" record.Private with
  | .error err => .error err
  | .ok n =>
    match bindModel form record.Model with
    | .error err => .error err
    | .ok model => .ok { record with Private := n, Model := model }

/-! ## Storage operations -/

/-- The row with the least primary key among `rows` (the earliest one on a tie). -/
def firstByKey {T : Type} (key : T → Nat) (rows : List T) : Option T :=
  rows.foldl (fun best row =>
    match best with
    | none => some row
    | some b => if key row < key b then some row else some b) none

/-- Model of `DB.First(&record, id)` with a string `id`.  A string that `strconv.Atoi` accepts
is a primary-key value; any other string is sent to the engine as an inline condition, and
`sqlWhere` stands for the engine: an error text, or the predicate the condition denotes.
Only visible rows are read; the error of an empty result is `record not found`.  The handlers
never pass an empty `id`: `updateRecord` returns before the lookup, and a route parameter is
not empty. -/
def dbFirst {T : Type} (live : T → Bool) (key : T → Nat)
    (sqlWhere : String → Except String (T → Bool)) (rows : List T) (id : String) :
    Except String T :=
  match parseInt id with
  | some n =>
    match firstByKey key (rows.filter (fun r => live r && decide ((key r : Int) = n))) with
    | some r => .ok r
    | none => .error "record not found"
  | none =>
    match sqlWhere id with
    | .error err => .error err
    | .ok cond =>
      match firstByKey key (rows.filter (fun r => live r && cond r)) with
      | some r => .ok r
      | none => .error "record not found"

/-- The key a fresh row receives: one more than the largest key of the table. -/
def nextID (keys : List Nat) : Nat := keys.foldl max 0 + 1

/-- Model of `DB.Create(&record)` on the user table: a zero key is replaced by a fresh one,
zero timestamps by `now`; an explicit key that is already taken is the returned error. -/
def dbCreateUser (now : Nat) (db : DB) (record : User) : Except String (DB × User) :=
  if record.ID ≠ 0 ∧ db.users.any (fun u => u.ID == record.ID) = true then
    .error "UNIQUE constraint failed: users.id"
  else
    let record := { record with
      ID := if record.ID = 0 then nextID (db.users.map (fun u => u.ID)) else record.ID
      Model := { record.Model with
        CreatedAt := if record.Model.CreatedAt = 0 then now else record.Model.CreatedAt
        UpdatedAt := if record.Model.UpdatedAt = 0 then now else record.Model.UpdatedAt } }
    .ok ({ db with users := db.users ++ [record] }, record)

/-- Model of `DB.Create(&record)` on the article table. -/
def dbCreateArticle (now : Nat) (db : DB) (record : Article) : Except String (DB × Article) :=
  if record.ID ≠ 0 ∧ db.articles.any (fun a => a.ID == record.ID) = true then
    .error "UNIQUE constraint failed: articles.id"
  else
    let record := { record with
      ID := if record.ID = 0 then nextID (db.articles.map (fun a => a.ID)) else record.ID
      Model := { record.Model with
        CreatedAt := if record.Model.CreatedAt = 0 then now else record.Model.CreatedAt
        UpdatedAt := if record.Model.UpdatedAt = 0 then now else record.Model.UpdatedAt } }
    .ok ({ db with articles := db.articles ++ [record] }, record)

/-- Model of `DB.Save(record)` on the user table: the row with the record's key is
overwritten with the record, its update time set to `now`; with no such row the record is
inserted. -/
def dbSaveUser (now : Nat) (db : DB) (record : User) : DB :=
  let record := { record with Model := { record.Model with UpdatedAt := now } }
  if db.users.any (fun u => u.ID == record.ID) = true then
    { db with users := db.users.map (fun u => if u.ID = record.ID then record else u) }
  else { db with users := db.users ++ [record] }

/-- Model of `DB.Save(record)` on the article table. -/
def dbSaveArticle (now : Nat) (db : DB) (record : Article) : DB :=
  let record := { record with Model := { record.Model with UpdatedAt := now } }
  if db.articles.any (fun a => a.ID == record.ID) = true then
    { db with articles := db.articles.map (fun a => if a.ID = record.ID then record else a) }
  else { db with articles := db.articles ++ [record] }

/-- Outcome of loading and executing a template. -/
inductive Rendered where
  | loadError (msg : String)
  | execError (msg : String)
  | html (text : String)
  deriving DecidableEq, Repr

/-- Whether a row answers to the string `id` given to `dbFirst`: its primary key is the
integer `id` denotes, or, for an `id` that is not an integer numeral, the engine accepts `id`
as a condition and the row satisfies it. -/
def answersTo {T : Type} (key : T → Nat) (sqlWhere : String → Except String (T → Bool))
    (id : String) (row : T) : Bool :=
  match parseInt id with
  | some n => decide ((key row : Int) = n)
  | none =>
    match sqlWhere id with
    | .error _ => false
    | .ok cond => cond row

/-! ## Record engine -/

/-- The end of `createRecord` after the insert: render the success template. -/
def createResponse (rendered : Rendered) (c : Context) : Context :=
  match rendered with
  | .loadError msg => c.String 500 ("Template error: " ++ msg)
  | .execError msg => c.String 500 ("Template execution error: " ++ msg)
  | .html text => c.String 200 text

/-- The block of `createRecord` that runs when the record is an `Article`: `Private` from
the posted selector, `Category` from the posted new category or else the selected one. -/
def articleCreateDefaults (req : Request) (article : Article) : Article :=
  let selectedCategory := req.PostForm "Category"
  let newCategory := req.PostForm "new_category"
  let article :=
    if req.PostForm "PrivateSelect" = "1" then { article with Private := 1 }
    else { article with Private := 0 }
  if newCategory ≠ "" then { article with Category := newCategory }
  else { article with Category := selectedCategory }

/-- The block of `updateRecord` that runs when the record is an `Article`: `Private` from
the posted selector, `Category` overridden by a posted new category. -/
def articleUpdateFields (req : Request) (article : Article) : Article :=
  let article :=
    if req.PostForm "PrivateSelect" = "1" then { article with Private := 1 }
    else { article with Private := 0 }
  let newCategory := req.PostForm "new_category"
  if newCategory ≠ "" then { article with Category := newCategory } else article

/-- The handler `createRecord[User]`: bind onto the zero value, force `Role`, insert,
render. -/
def createRecordUser (bindModel : Form → GormModel → Except String GormModel)
    (render : User → Rendered) (now : Nat) (req : Request) (db : DB) (c : Context) :
    DB × Context :=
  match bindUser bindModel req.Form User.zero with
  | .error err => (db, c.String 400 ("Binding error: " ++ err))
  | .ok record =>
    let record := { record with Role := "Member" }
    match dbCreateUser now db record with
    | .error err => (db, c.String 500 ("Error creating record: " ++ err))
    | .ok (db, record) => (db, createResponse (render record) c)

/-- The handler `createRecord[Article]`: bind onto the zero value, set `Private` and
`Category` from the posted form, insert, render. -/
def createRecordArticle (bindModel : Form → GormModel → Except String GormModel)
    (render : Article → Rendered) (now : Nat) (req : Request) (db : DB) (c : Context) :
    DB × Context :=
  match bindArticle bindModel req.Form Article.zero with
  | .error err => (db, c.String 400 ("Binding error: " ++ err))
  | .ok record =>
    let record := articleCreateDefaults req record
    match dbCreateArticle now db record with
    | .error err => (db, c.String 500 ("Error creating record: " ++ err))
    | .ok (db, record) => (db, createResponse (render record) c)

/-- The handler `updateRecord[Article]`. -/
def updateRecordArticle (sqlWhere : String → Except String (Article → Bool))
    (bindModel : Form → GormModel → Except String GormModel) (now : Nat) (req : Request)
    (db : DB) (c : Context) : DB × Context :=
  let id := req.PostForm "ID"
  if id = "" then (db, c.String 400 "Missing ID")
  else
    match dbFirst Article.live (fun a => a.ID) sqlWhere db.articles id with
    | .error err => (db, c.String 404 ("Record not found: " ++ err))
    | .ok record =>
      match bindArticle bindModel req.Form record with
      | .error err => (db, c.String 400 ("Form bind error: " ++ err))
      | .ok record =>
        let record := articleUpdateFields req record
        (dbSaveArticle now db record, c.String 200 "Record updated successfully!")

/-- The handler `updateRecord[User]`: no field is forced after binding. -/
def updateRecordUser (sqlWhere : String → Except String (User → Bool))
    (bindModel : Form → GormModel → Except String GormModel) (now : Nat) (req : Request)
    (db : DB) (c : Context) : DB × Context :=
  let id := req.PostForm "ID"
  if id = "" then (db, c.String 400 "Missing ID")
  else
    match dbFirst User.live (fun u => u.ID) sqlWhere db.users id with
    | .error err => (db, c.String 404 ("Record not found: " ++ err))
    | .ok record =>
      match bindUser bindModel req.Form record with
      | .error err => (db, c.String 400 ("Form bind error: " ++ err))
      | .ok record => (dbSaveUser now db record, c.String 200 "Record updated successfully!")

/-! ## Schema reflection -/

/-- What `reflect` reports for one struct field: its name, whether it is embedded, and the
values of `Tag.Get("form")` and `Tag.Get("label")` (empty when the tag is absent). -/
structure StructField where
  Name : String
  Anonymous : Bool
  formTag : String
  labelTag : String
  deriving DecidableEq, Repr

/-- The fields of `Article` as declared in `main.go`. -/
def ArticleType : List StructField :=
  [⟨"ID", false, "-", ""⟩,
   ⟨"Title", false, "Title", ""⟩,
   ⟨"Summary", false, "Summary,textarea", ""⟩,
   ⟨"Content", false, "Content,textarea", ""⟩,
   ⟨"Category", false, "Category", "Category"⟩,
   ⟨"Private", false, "PrivateSelect,select", "Private"⟩,
   ⟨"AuthorID", false, "-", ""⟩,
   ⟨"Author", false, "-", ""⟩,
   ⟨"Model", true, "", ""⟩]

/-- The fields of `User` as declared in `main.go`. -/
def UserType : List StructField :=
  [⟨"ID", false, "-", ""⟩,
   ⟨"FirstName", false, "FirstName", "First Name"⟩,
   ⟨"LastName", false, "LastName", "Last Name"⟩,
   ⟨"Pseudonym", false, "Pseudonym", "Pseudonym"⟩,
   ⟨"Mail", false, "Mail", "Email Address"⟩,
   ⟨"RoleRequested", false, "RoleRequested", "User Role (Requested)"⟩,
   ⟨"Role", false, "Role", "User Role (Attributed)"⟩,
   ⟨"Password", false, "Password", "Password"⟩,
   ⟨"Model", true, "", ""⟩]

/-- Model of `strings.Split(s, ",")` on the characters of `s`. -/
def splitComma : List Char → List (List Char)
  | [] => [[]]
  | ch :: rest =>
    if ch = ',' then [] :: splitComma rest
    else
      match splitComma rest with
      | [] => [[ch]]
      | part :: parts => (ch :: part) :: parts

/-- White space in the sense of `unicode.IsSpace`. -/
def isSpace (ch : Char) : Bool :=
  let n := ch.toNat
  (9 ≤ n && n ≤ 13) || n == 32 || n == 0x85 || n == 0xA0 || n == 0x1680 ||
    (0x2000 ≤ n && n ≤ 0x200A) || n == 0x2028 || n == 0x2029 || n == 0x202F ||
    n == 0x205F || n == 0x3000

/-- Model of `strings.TrimSpace`. -/
def trimSpace (cs : List Char) : List Char :=
  ((cs.dropWhile isSpace).reverse.dropWhile isSpace).reverse

/-- The parts of a form tag: `strings.Split(formTag, ",")`. -/
def formParts (formTag : String) : List String :=
  (splitComma formTag.data).map String.mk

/-- The inner loop of `extractFields` over the parts of the form tag, starting from
`"text"`. -/
def fieldTypeOf (parts : List String) : String :=
  parts.foldl (fun fieldType part =>
    let part : String := ⟨trimSpace part.data⟩
    if part = "checkbox" then "checkbox"
    else if part = "textarea" then "textarea"
    else fieldType) "text"

/-- One element of the result of `extractFields`: the keys `name`, `type`, `label`, and the
key `value` that the edit form adds. -/
structure FieldDescriptor where
  name : String
  type : String
  label : String
  value : Option String
  deriving DecidableEq, Repr

/-- The body of the loop of `extractFields` for one field; `none` is `continue`. -/
def describeField (excludeFields : List String) (field : StructField) :
    Option FieldDescriptor :=
  if field.Anonymous = true ∨ field.Name ∈ excludeFields then none
  else if field.formTag = "-" ∨ field.formTag = "Private_ui_only" then none
  else
    let fieldType := if field.formTag ≠ "" then fieldTypeOf (formParts field.formTag) else "text"
    let fieldName :=
      if field.formTag ≠ "" then (formParts field.formTag).headD "" else field.Name
    let label := if field.labelTag ≠ "" then field.labelTag else field.Name
    let fieldType := if field.Name = "PrivateSelect" then "select" else fieldType
    some ⟨fieldName, fieldType, label, none⟩

/-- Model of `extractFields[T](excludeFields...)`, with `t` the fields of `T`. -/
def extractFields (t : List StructField) (excludeFields : List String) :
    List FieldDescriptor :=
  t.foldl (fun fields field =>
    match describeField excludeFields field with
    | none => fields
    | some d => fields ++ [d]) []

/-- The text of a form tag before its first comma. -/
def beforeFirstComma (formTag : String) : String := ⟨formTag.data.takeWhile (fun ch => ch ≠ ',')⟩

/-! ## Edit form -/

/-- A field value obtained by reflection. -/
inductive GoValue where
  | uint (n : Nat)
  | int (i : Int)
  | string (s : String)
  | time (t : Nat)
  | deletedAt (t : Option Nat)
  | model (m : GormModel)
  | user (u : User)
  deriving DecidableEq, Repr

/-- Model of `fmt.Sprintf("%v", value)`: numbers in decimal, strings as they are; `fmtOther`
stands for the formatting of times and structs. -/
def Sprint (fmtOther : GoValue → String) (v : GoValue) : String :=
  match v with
  | .uint n => toString n
  | .int i => toString i
  | .string s => s
  | other => fmtOther other

/-- Fields promoted from the embedded `gorm.Model`, reachable by name when not shadowed. -/
def GormModel.FieldByName (m : GormModel) (name : String) : Option GoValue :=
  if name = "ID" then some (.uint m.ID)
  else if name = "CreatedAt" then some (.time m.CreatedAt)
  else if name = "UpdatedAt" then some (.time m.UpdatedAt)
  else if name = "DeletedAt" then some (.deletedAt m.DeletedAt)
  else none

/-- Model of `reflect.ValueOf(record).FieldByName(name)` on a `User`: the declared fields by
their Go names, then the promoted fields of the embedded model; `none` is the invalid
value. -/
def User.FieldByName (u : User) (name : String) : Option GoValue :=
  if name = "ID" then some (.uint u.ID)
  else if name = "FirstName" then some (.string u.FirstName)
  else if name = "LastName" then some (.string u.LastName)
  else if name = "Pseudonym" then some (.string u.Pseudonym)
  else if name = "Mail" then some (.string u.Mail)
  else if name = "RoleRequested" then some (.string u.RoleRequested)
  else if name = "Role" then some (.string u.Role)
  else if name = "Password" then some (.string u.Password)
  else if name = "Model" then some (.model u.Model)
  else u.Model.FieldByName name

/-- Model of `reflect.ValueOf(record).FieldByName(name)` on an `Article`. -/
def Article.FieldByName (a : Article) (name : String) : Option GoValue :=
  if name = "ID" then some (.uint a.ID)
  else if name = "Title" then some (.string a.Title)
  else if name = "Summary" then some (.string a.Summary)
  else if name = "Content" then some (.string a.Content)
  else if name = "Category" then some (.string a.Category)
  else if name = "Private" then some (.int a.Private)
  else if name = "AuthorID" then some (.uint a.AuthorID)
  else if name = "Author" then some (.user a.Author)
  else if name = "Model" then some (.model a.Model)
  else a.Model.FieldByName name

/-- The pre-fill loop of `generateEditForm`: each descriptor whose `name` is a field of the
record receives the key `value`. -/
def prefill (fmtOther : GoValue → String) (fieldByName : String → Option GoValue)
    (fields : List FieldDescriptor) : List FieldDescriptor :=
  fields.map (fun d =>
    match fieldByName d.name with
    | some v => { d with value := some (Sprint fmtOther v) }
    | none => d)

/-- The template context built by `generateEditForm`; `PrivateSelect` is set for an
`Article` only. -/
structure EditContext where
  fields : List FieldDescriptor
  type : String
  isEdit : Bool
  ID : String
  PrivateSelect : Option String
  deriving DecidableEq, Repr

/-- The context `generateEditForm[Article]` builds for a loaded record. -/
def editContextArticle (fmtOther : GoValue → String) (id : String) (record : Article) :
    EditContext :=
  { fields := prefill fmtOther record.FieldByName (extractFields ArticleType [])
    type := "Article"
    isEdit := true
    ID := id
    PrivateSelect := some (toString record.Private) }

/-- The context `generateEditForm[User]` builds for a loaded record. -/
def editContextUser (fmtOther : GoValue → String) (id : String) (record : User) :
    EditContext :=
  { fields := prefill fmtOther record.FieldByName (extractFields UserType [])
    type := "User"
    isEdit := true
    ID := id
    PrivateSelect := none }

/-- The handler `generateEditForm[Article]`; `tpl` is the outcome of loading the template, a
load error or the function that executes it (an execution error yields the empty text). -/
def generateEditFormArticle (sqlWhere : String → Except String (Article → Bool))
    (fmtOther : GoValue → String) (tpl : Except String (EditContext → String)) (db : DB)
    (id : String) (c : Context) : Context :=
  match dbFirst Article.live (fun a => a.ID) sqlWhere db.articles id with
  | .error err => c.String 404 ("Record not found: " ++ err)
  | .ok record =>
    match tpl with
    | .error err => c.String 500 ("Template error: " ++ err)
    | .ok exec => c.String 200 (exec (editContextArticle fmtOther id record))

/-- The handler `generateEditForm[User]`. -/
def generateEditFormUser (sqlWhere : String → Except String (User → Bool))
    (fmtOther : GoValue → String) (tpl : Except String (EditContext → String)) (db : DB)
    (id : String) (c : Context) : Context :=
  match dbFirst User.live (fun u => u.ID) sqlWhere db.users id with
  | .error err => c.String 404 ("Record not found: " ++ err)
  | .ok record =>
    match tpl with
    | .error err => c.String 500 ("Template error: " ++ err)
    | .ok exec => c.String 200 (exec (editContextUser fmtOther id record))

/-! ## Sample data -/

/-- A registered administrator. -/
def alice : User :=
  ⟨1, "Alice", "Ames", "alice", "alice@example.org", "Admin", "Admin", "pw1", ⟨0, 10, 10, none⟩⟩

/-- A registered member. -/
def bob : User :=
  ⟨2, "Bob", "Burns", "bob", "bob@example.org", "Editor", "Member", "pw2", ⟨0, 11, 11, none⟩⟩

/-- A user whose stored role is not a name of the role maps. -/
def mallory : User :=
  ⟨3, "Mal", "Lory", "mal", "mal@example.org", "Admin", "Root", "pw3", ⟨0, 12, 12, none⟩⟩

/-- A public article. -/
def publicArticle : Article :=
  ⟨1, "Welcome", "About the wiki", "Hello", "News", 0, 1, User.zero, ⟨0, 20, 20, none⟩⟩

/-- A private article. -/
def privateArticle : Article :=
  ⟨2, "Plans", "Internal wiki plans", "Secret", "Staff", 1, 1, User.zero, ⟨0, 30, 30, none⟩⟩

/-- A database with three users and two articles. -/
def sampleDB : DB := ⟨[alice, bob, mallory], [publicArticle, privateArticle]⟩

/-- A second public article in the category of the first. -/
def newsArticle : Article :=
  ⟨3, "Release", "Version two", "Notes", "News", 0, 1, User.zero, ⟨0, 40, 40, none⟩⟩

/-- The embedded model is left as it is by the binder (a form without model keys). -/
def keepModel : Form → GormModel → Except String GormModel := fun _ model => .ok model

/-- An engine that rejects every inline condition. -/
def rejectWhere {T : Type} : String → Except String (T → Bool) :=
  fun _ => .error "syntax error"

/-- A registration form that asks for the administrator role. -/
def registration : Request :=
  ⟨[], [("FirstName", "Eve"), ("Mail", "eve@example.org"), ("RoleRequested", "Admin"),
        ("Role", "Admin"), ("Password", "pw4")]⟩

/-- An article form with the private selector set, a selected and a new category. -/
def articleForm : Request :=
  ⟨[], [("ID", "1"), ("Title", "Roadmap"), ("Category", "News"), ("new_category", "Plans"),
        ("PrivateSelect", "1")]⟩

/-- An article form without a private selector, for the private sample article. -/
def articleFormPublic : Request :=
  ⟨[], [("ID", "2"), ("Title", "Plans"), ("Category", "Staff"), ("new_category", "Open")]⟩

/-! ## Theorems -/

/-! ### Helper lemmas -/

theorem mapIndex_of_not_mem (m : List (String × Nat)) (key : String)
    (h : key ∉ m.map Prod.fst) : mapIndex m key = 0 := by
  have hnone : m.lookup key = none := by
    induction m with
    | nil => rfl
    | cons p rest ih =>
      obtain ⟨k, v⟩ := p
      simp only [List.map_cons, List.mem_cons, not_or] at h
      have hne : (key == k) = false := by simpa using h.1
      simp only [List.lookup, hne]
      exact ih h.2
  simp [mapIndex, hnone]

theorem dbFirstUser_eq_none (db : DB) (userID : Nat)
    (h : ∀ u ∈ db.users, u.live = true → u.ID ≠ userID) : dbFirstUser db userID = none := by
  unfold dbFirstUser
  rw [List.find?_eq_none]
  intro u hu
  by_cases hl : u.live = true
  · simp [hl, h u hu hl]
  · simp [hl]

theorem dbFirstUser_some (db : DB) (userID : Nat) (user : User)
    (h : dbFirstUser db userID = some user) :
    user ∈ db.users ∧ user.live = true ∧ user.ID = userID := by
  unfold dbFirstUser at h
  have hp := List.find?_some h
  have hm := List.mem_of_find?_eq_some h
  simp only [Bool.and_eq_true, beq_iff_eq] at hp
  exact ⟨hm, hp.1, hp.2⟩

theorem mem_fetchArticles (like : String → String → Bool) (db : DB) (userRole : Nat)
    (search : String) (a : Article) (h : a ∈ fetchArticles like db userRole search) :
    a ∈ db.articles ∧ a.live = true ∧ (userRole = Visitor → a.Private = 0) := by
  unfold fetchArticles at h
  rw [(List.perm_insertionSort _ _).mem_iff] at h
  by_cases hs : search ≠ "" <;> by_cases hr : userRole = Visitor <;>
    simp only [hs, hr, if_true, if_false, List.mem_filter, beq_iff_eq] at h <;>
    simp_all

theorem mem_fetchLatest (db : DB) (userRole : Nat) (search : String) (a : Article)
    (h : a ∈ fetchLatest db userRole search) :
    a ∈ db.articles ∧ a.live = true ∧ (userRole = Visitor → a.Private = 0) := by
  unfold fetchLatest at h
  by_cases hs : search = ""
  · simp only [hs, if_true] at h
    have h2 := List.mem_of_mem_take h
    rw [(List.perm_insertionSort _ _).mem_iff] at h2
    by_cases hr : userRole = Visitor <;>
      simp only [hr, if_true, if_false, List.mem_filter, beq_iff_eq] at h2 <;>
      simp_all
  · simp [hs] at h

theorem mem_groupAppend {E : Type} (m : List (String × List E)) (key : String) (e : E)
    (k : String) (es : List E) (x : E)
    (hk : (k, es) ∈ groupAppend m key e) (hx : x ∈ es) :
    (x = e ∧ k = key) ∨ ∃ es0, (k, es0) ∈ m ∧ x ∈ es0 := by
  induction m with
  | nil =>
    simp only [groupAppend, List.mem_singleton, Prod.mk.injEq] at hk
    obtain ⟨h1, h2⟩ := hk
    subst h2
    simp only [List.mem_singleton] at hx
    exact Or.inl ⟨hx, h1⟩
  | cons p rest ih =>
    obtain ⟨k0, es0⟩ := p
    simp only [groupAppend] at hk
    by_cases hkey : k0 = key
    · simp only [hkey, if_true, List.mem_cons, Prod.mk.injEq] at hk
      rcases hk with ⟨h1, h2⟩ | hk
      · subst h2
        rcases List.mem_append.mp hx with hx | hx
        · exact Or.inr ⟨es0, by simp [h1, hkey], hx⟩
        · simp only [List.mem_singleton] at hx
          exact Or.inl ⟨hx, h1⟩
      · exact Or.inr ⟨es, List.mem_cons_of_mem _ hk, hx⟩
    · simp only [hkey, if_false, List.mem_cons, Prod.mk.injEq] at hk
      rcases hk with ⟨h1, h2⟩ | hk
      · exact Or.inr ⟨es0, by simp [h1], h2 ▸ hx⟩
      · rcases ih hk with h | ⟨es1, h1, h2⟩
        · exact Or.inl h
        · exact Or.inr ⟨es1, List.mem_cons_of_mem _ h1, h2⟩

theorem mem_groupFold (fmt : Nat → String) (articles : List Article)
    (m : List (String × List GroupedEntry)) (k : String) (es : List GroupedEntry)
    (x : GroupedEntry)
    (hk : (k, es) ∈ articles.foldl
      (fun m article => groupAppend m article.Category (groupedEntry fmt article)) m)
    (hx : x ∈ es) :
    (∃ a ∈ articles, x = groupedEntry fmt a ∧ k = a.Category) ∨
      ∃ es0, (k, es0) ∈ m ∧ x ∈ es0 := by
  induction articles generalizing m with
  | nil => exact Or.inr ⟨es, hk, hx⟩
  | cons a rest ih =>
    simp only [List.foldl_cons] at hk
    rcases ih _ hk with ⟨b, hb, h1, h2⟩ | ⟨es0, h1, h2⟩
    · exact Or.inl ⟨b, List.mem_cons_of_mem _ hb, h1, h2⟩
    · rcases mem_groupAppend m _ _ k es0 x h1 h2 with ⟨h3, h4⟩ | h
      · exact Or.inl ⟨a, List.mem_cons_self _ _, h3, h4⟩
      · exact Or.inr h

theorem mem_groupArticles (fmt : Nat → String) (articles : List Article) (k : String)
    (es : List GroupedEntry) (x : GroupedEntry)
    (hk : (k, es) ∈ groupArticles fmt articles) (hx : x ∈ es) :
    ∃ a ∈ articles, x = groupedEntry fmt a ∧ k = a.Category := by
  rcases mem_groupFold fmt articles [] k es x hk hx with h | ⟨es0, h1, _⟩
  · exact h
  · simp at h1

/-! ### The authorization gate and the role maps -/

/-- C1: `AuthMiddleware(r)` answers 401 and aborts when the session has no `userID`; answers
401 and aborts when no visible stored user has that id; answers 403 and aborts when the rank
of the stored user's `Role` is below `r`; otherwise sets `currentUser` to the stored user and
runs the rest of the chain.  A stored user with the session's id is always found, and for
ranks `R1 < R2` a caller of rank `R1` gets 403 from the gate at `R2` while a caller of rank
`R2` or more passes it. -/
theorem AuthMiddleware_decision (requiredRole : Nat) (db : DB) (session : Session)
    (next : Context → Context) (c : Context) :
    (session.userID = none →
      AuthMiddleware requiredRole db session next c =
        { c with status := some 401, body := c.body ++ "Unauthorized: Please login",
                 aborted := true }) ∧
    (∀ userID, session.userID = some userID →
      (∀ u ∈ db.users, u.live = true → u.ID ≠ userID) →
      AuthMiddleware requiredRole db session next c =
        { c with status := some 401, body := c.body ++ "Unauthorized: Invalid session",
                 aborted := true }) ∧
    (∀ userID, (∃ u ∈ db.users, u.live = true ∧ u.ID = userID) →
      ∃ user, dbFirstUser db userID = some user ∧ user ∈ db.users ∧ user.ID = userID) ∧
    (∀ userID user, session.userID = some userID → dbFirstUser db userID = some user →
      (mapIndex roleLevel user.Role < requiredRole →
        AuthMiddleware requiredRole db session next c =
          { c with status := some 403, body := c.body ++ "Forbidden: Insufficient role",
                   aborted := true }) ∧
      (requiredRole ≤ mapIndex roleLevel user.Role →
        AuthMiddleware requiredRole db session next c =
          next { c with currentUser := some user })) ∧
    (∀ R1 R2 userID user, R1 < R2 → session.userID = some userID →
      dbFirstUser db userID = some user →
      (mapIndex roleLevel user.Role = R1 →
        AuthMiddleware R2 db session next c =
          { c with status := some 403, body := c.body ++ "Forbidden: Insufficient role",
                   aborted := true }) ∧
      (R2 ≤ mapIndex roleLevel user.Role →
        AuthMiddleware R2 db session next c = next { c with currentUser := some user })) := by
  refine ⟨?_, ?_, ?_, ?_, ?_⟩
  · intro h
    simp [AuthMiddleware, h, Context.String, Context.Abort]
  · intro userID h hno
    simp [AuthMiddleware, h, dbFirstUser_eq_none db userID hno, Context.String, Context.Abort]
  · rintro userID ⟨u, hu, hl, hid⟩
    cases hf : dbFirstUser db userID with
    | none =>
      unfold dbFirstUser at hf
      rw [List.find?_eq_none] at hf
      have := hf u hu
      simp [hl, hid] at this
    | some user =>
      obtain ⟨h1, _, h3⟩ := dbFirstUser_some db userID user hf
      exact ⟨user, rfl, h1, h3⟩
  · intro userID user h hf
    constructor
    · intro hlt
      simp [AuthMiddleware, h, hf, hlt, Context.String, Context.Abort]
    · intro hle
      simp [AuthMiddleware, h, hf, Nat.not_lt.mpr hle, Context.Set]
  · intro R1 R2 userID user hlt h hf
    constructor
    · intro hr
      have hlt2 : mapIndex roleLevel user.Role < R2 := hr ▸ hlt
      simp [AuthMiddleware, h, hf, hlt2, Context.String, Context.Abort]
    · intro hle
      simp [AuthMiddleware, h, hf, Nat.not_lt.mpr hle, Context.Set]

/-- Witness for C1 on the sample database with the gate at `Editor`: no session, a stale
session, a member and an administrator. -/
theorem AuthMiddleware_decision_witness :
    (AuthMiddleware Editor sampleDB ⟨none⟩ (fun c => c) Context.fresh).status = some 401 ∧
    (AuthMiddleware Editor sampleDB ⟨some 99⟩ (fun c => c) Context.fresh).status = some 401 ∧
    (AuthMiddleware Editor sampleDB ⟨some 2⟩ (fun c => c) Context.fresh).status = some 403 ∧
    (AuthMiddleware Editor sampleDB ⟨some 1⟩ (fun c => c) Context.fresh).currentUser
      = some alice := by
  refine ⟨?_, ?_, ?_, ?_⟩
  · rw [(AuthMiddleware_decision Editor sampleDB ⟨none⟩ (fun c => c) Context.fresh).1 rfl]
  · rw [(AuthMiddleware_decision Editor sampleDB ⟨some 99⟩ (fun c => c) Context.fresh).2.1
      99 rfl (by decide)]
  · rw [((AuthMiddleware_decision Editor sampleDB ⟨some 2⟩ (fun c => c) Context.fresh).2.2.2.1
      2 bob rfl (by decide)).1 (by decide)]
  · rw [((AuthMiddleware_decision Editor sampleDB ⟨some 1⟩ (fun c => c) Context.fresh).2.2.2.1
      1 alice rfl (by decide)).2 (by decide)]

/-- C8 fails as stated: the name `"Editor"` has rank 3, not 2, and the name
`"EditorInChief"` is not a key of the map, so its rank is 0, not 3. -/
theorem role_scale_as_stated_fails :
    ¬ (mapIndex roleLevel "Visitor" = 0 ∧ mapIndex roleLevel "Member" = 1 ∧
        mapIndex roleLevel "Editor" = 2 ∧ mapIndex roleLevel "EditorInChief" = 3 ∧
        mapIndex roleLevel "Admin" = 4) ∧
    mapIndex roleLevel "Editor" = 3 ∧ mapIndex roleLevel "EditorInChief" = 0 := by
  decide

/-- C8, amended: the names `"Visitor"`, `"Member"`, `"Contributor"`, `"Editor"` and `"Admin"`
have the ranks 0, 1, 2, 3 and 4, which are the constants `Visitor`, `Member`, `Editor`,
`EditorInChief` and `Admin`; the constants are strictly increasing; and `getArticles` looks
every name up with the same result as `AuthMiddleware`. -/
theorem role_scale :
    mapIndex roleLevel "Visitor" = 0 ∧ mapIndex roleLevel "Member" = 1 ∧
    mapIndex roleLevel "Contributor" = 2 ∧ mapIndex roleLevel "Editor" = 3 ∧
    mapIndex roleLevel "Admin" = 4 ∧
    Visitor = 0 ∧ Member = 1 ∧ Editor = 2 ∧ EditorInChief = 3 ∧ Admin = 4 ∧
    Visitor < Member ∧ Member < Editor ∧ Editor < EditorInChief ∧ EditorInChief < Admin ∧
    (∀ role, mapIndex roleMap role = mapIndex roleLevel role) := by
  refine ⟨by decide, by decide, by decide, by decide, by decide, rfl, rfl, rfl, rfl, rfl,
    by decide, by decide, by decide, by decide, fun role => rfl⟩

/-- C7: a role name that is not a key of the role maps has rank `Visitor` in both
`AuthMiddleware` and `getArticles`; a logged-in user with such a role gets 403 from every
gate that requires rank 1 or more, and the listing built for that user is the one built for
an anonymous visitor, every row of it having the private flag unset. -/
theorem unknown_role_is_Visitor (role : String)
    (hAuth : role ∉ roleLevel.map Prod.fst) (hList : role ∉ roleMap.map Prod.fst) :
    mapIndex roleLevel role = Visitor ∧ mapIndex roleMap role = Visitor ∧
    (∀ (requiredRole : Nat) (db : DB) (session : Session) (next : Context → Context)
        (c : Context) (userID : Nat) (user : User),
      1 ≤ requiredRole → session.userID = some userID →
      dbFirstUser db userID = some user → user.Role = role →
      AuthMiddleware requiredRole db session next c =
        { c with status := some 403, body := c.body ++ "Forbidden: Insufficient role",
                 aborted := true }) ∧
    (∀ (like : String → String → Bool) (fmt : Nat → String) (db : DB) (search : String)
        (c : Context) (user : User),
      c.currentUser = some user → user.Role = role →
      listingRole c = Visitor ∧
      (getArticlesContext like fmt db search c).grouped_articles =
        (getArticlesContext like fmt db search { c with currentUser := none }).grouped_articles ∧
      (getArticlesContext like fmt db search c).latest_articles =
        (getArticlesContext like fmt db search { c with currentUser := none }).latest_articles ∧
      (∀ a ∈ fetchArticles like db (listingRole c) search, a.Private = 0) ∧
      (∀ a ∈ fetchLatest db (listingRole c) search, a.Private = 0)) := by
  have h1 : mapIndex roleLevel role = Visitor := mapIndex_of_not_mem roleLevel role hAuth
  have h2 : mapIndex roleMap role = Visitor := mapIndex_of_not_mem roleMap role hList
  refine ⟨h1, h2, ?_, ?_⟩
  · intro requiredRole db session next c userID user hreq hs hf hr
    have hlt : mapIndex roleLevel user.Role < requiredRole := by
      rw [hr, h1]; exact hreq
    simp [AuthMiddleware, hs, hf, hlt, Context.String, Context.Abort]
  · intro like fmt db search c user hc hr
    have hrole : listingRole c = Visitor := by
      simp [listingRole, hc, hr, h2]
    refine ⟨hrole, ?_, ?_, ?_, ?_⟩
    · have h0 : listingRole { c with currentUser := none } = Visitor := rfl
      simp only [getArticlesContext, hrole, h0]
    · have h0 : listingRole { c with currentUser := none } = Visitor := rfl
      simp only [getArticlesContext, hrole, h0]
    · intro a ha
      exact (mem_fetchArticles like db _ search a ha).2.2 hrole
    · intro a ha
      exact (mem_fetchLatest db _ search a ha).2.2 hrole

/-- Witness for C7: the stored role `"Root"` of the sample user `mallory`. -/
theorem unknown_role_is_Visitor_witness :
    "Root" ∉ roleLevel.map Prod.fst ∧ "Root" ∉ roleMap.map Prod.fst ∧
    mapIndex roleLevel "Root" = Visitor ∧
    (AuthMiddleware Member sampleDB ⟨some 3⟩ (fun c => c) Context.fresh).status = some 403 ∧
    listingRole (Context.fresh.Set mallory) = Visitor :=
  have h := unknown_role_is_Visitor "Root" (by decide) (by decide)
  ⟨by decide, by decide, h.1,
    by rw [h.2.2.1 Member sampleDB ⟨some 3⟩ (fun c => c) Context.fresh 3 mallory
      (by decide) rfl (by decide) rfl],
    (h.2.2.2 (fun _ _ => false) (fun _ => "") sampleDB "" (Context.fresh.Set mallory) mallory
      rfl rfl).1⟩

/-! ### The listing for anonymous callers -/

/-- C2: when the session resolves to no user under `LoadUser` (no `userID`, or a `userID`
that matches no visible stored user), the handler chain answers with the rendering of a
template context in which every article fetched for the grouped result and for the latest-5
result has `Private` different from 1, and every entry of the two results is built from such
an article. -/
theorem anonymous_listing_excludes_private (like : String → String → Bool)
    (fmt : Nat → String) (render : ListingContext → String) (db : DB) (session : Session)
    (search : String)
    (h : session.userID = none ∨
      ∃ userID, session.userID = some userID ∧ dbFirstUser db userID = none) :
    LoadUser db session (getArticles like fmt render db search) Context.fresh =
      Context.fresh.String 200 (render (getArticlesContext like fmt db search Context.fresh)) ∧
    (∀ a ∈ fetchArticles like db (listingRole Context.fresh) search, a.Private ≠ 1) ∧
    (∀ a ∈ fetchLatest db (listingRole Context.fresh) search, a.Private ≠ 1) ∧
    (∀ k es e, (k, es) ∈ (getArticlesContext like fmt db search Context.fresh).grouped_articles →
      e ∈ es →
      ∃ a ∈ fetchArticles like db (listingRole Context.fresh) search,
        a.Private ≠ 1 ∧ e = groupedEntry fmt a) ∧
    (∀ e ∈ (getArticlesContext like fmt db search Context.fresh).latest_articles,
      ∃ a ∈ fetchLatest db (listingRole Context.fresh) search,
        a.Private ≠ 1 ∧ e = latestEntry fmt a) := by
  have hrole : listingRole Context.fresh = Visitor := rfl
  have hA : ∀ a ∈ fetchArticles like db (listingRole Context.fresh) search, a.Private ≠ 1 := by
    intro a ha
    rw [(mem_fetchArticles like db _ search a ha).2.2 hrole]
    decide
  have hL : ∀ a ∈ fetchLatest db (listingRole Context.fresh) search, a.Private ≠ 1 := by
    intro a ha
    rw [(mem_fetchLatest db _ search a ha).2.2 hrole]
    decide
  refine ⟨?_, hA, hL, ?_, ?_⟩
  · rcases h with h | ⟨userID, h, hf⟩
    · simp [LoadUser, h, getArticles]
    · simp [LoadUser, h, hf, getArticles]
  · intro k es e hk he
    obtain ⟨a, ha, hea, _⟩ := mem_groupArticles fmt _ k es e hk he
    exact ⟨a, ha, hA a ha, hea⟩
  · intro e he
    simp only [getArticlesContext, List.mem_map] at he
    obtain ⟨a, ha, hea⟩ := he
    exact ⟨a, ha, hL a ha, hea.symm⟩

/-- Witness for C2: a stale session on the sample database; the listing holds the public
article only. -/
theorem anonymous_listing_excludes_private_witness :
    dbFirstUser sampleDB 99 = none ∧
    fetchArticles (fun _ _ => true) sampleDB (listingRole Context.fresh) "" = [publicArticle] ∧
    ∀ a ∈ fetchLatest sampleDB (listingRole Context.fresh) "", a.Private ≠ 1 :=
  ⟨by decide, by decide,
    (anonymous_listing_excludes_private (fun _ _ => true) (fun _ => "") (fun _ => "") sampleDB
      ⟨some 99⟩ "" (Or.inr ⟨99, rfl, by decide⟩)).2.2.1⟩

/-! ### The record engine -/

theorem bindUser_ok (bindModel : Form → GormModel → Except String GormModel) (form : Form)
    (old record : User) (h : bindUser bindModel form old = .ok record) :
    record.ID = old.ID ∧
      record.RoleRequested = bindString form "RoleRequested" old.RoleRequested := by
  simp only [bindUser] at h
  split at h
  · cases h
  · cases h
    exact ⟨rfl, rfl⟩

theorem bindArticle_ok (bindModel : Form → GormModel → Except String GormModel) (form : Form)
    (old record : Article) (h : bindArticle bindModel form old = .ok record) :
    record.ID = old.ID := by
  simp only [bindArticle] at h
  split at h
  · cases h
  · split at h
    · cases h
    · cases h
      rfl

theorem firstByKey_fold_mem {T : Type} (key : T → Nat) (rows : List T) (init : Option T)
    (r : T)
    (h : rows.foldl (fun best row =>
      match best with
      | none => some row
      | some b => if key row < key b then some row else some b) init = some r) :
    r ∈ rows ∨ init = some r := by
  induction rows generalizing init with
  | nil => exact Or.inr h
  | cons x xs ih =>
    simp only [List.foldl_cons] at h
    rcases ih _ h with hm | hi
    · exact Or.inl (List.mem_cons_of_mem _ hm)
    · cases init with
      | none =>
        simp only [Option.some.injEq] at hi
        exact Or.inl (hi ▸ List.mem_cons_self _ _)
      | some b =>
        simp only at hi
        by_cases hlt : key x < key b
        · simp only [hlt, if_true, Option.some.injEq] at hi
          exact Or.inl (hi ▸ List.mem_cons_self _ _)
        · simp only [hlt, if_false] at hi
          exact Or.inr hi

theorem firstByKey_mem {T : Type} (key : T → Nat) (rows : List T) (r : T)
    (h : firstByKey key rows = some r) : r ∈ rows := by
  rcases firstByKey_fold_mem key rows none r h with hm | hi
  · exact hm
  · cases hi

theorem dbFirst_ok_mem {T : Type} (live : T → Bool) (key : T → Nat)
    (sqlWhere : String → Except String (T → Bool)) (rows : List T) (id : String) (r : T)
    (h : dbFirst live key sqlWhere rows id = .ok r) :
    r ∈ rows ∧ live r = true ∧ answersTo key sqlWhere id r = true := by
  unfold dbFirst at h
  unfold answersTo
  cases hp : parseInt id with
  | some n =>
    simp only [hp] at h
    split at h
    · rename_i r0 hf
      cases h
      have hm := firstByKey_mem key _ _ hf
      simp only [List.mem_filter, Bool.and_eq_true] at hm
      exact ⟨hm.1, hm.2.1, hm.2.2⟩
    · cases h
  | none =>
    simp only [hp] at h
    cases hw : sqlWhere id with
    | error err => simp only [hw] at h; cases h
    | ok cond =>
      simp only [hw] at h
      split at h
      · rename_i r0 hf
        cases h
        have hm := firstByKey_mem key _ _ hf
        simp only [List.mem_filter, Bool.and_eq_true] at hm
        exact ⟨hm.1, hm.2.1, hm.2.2⟩
      · cases h

theorem dbFirst_error {T : Type} (live : T → Bool) (key : T → Nat)
    (sqlWhere : String → Except String (T → Bool)) (rows : List T) (id : String)
    (h : ∀ r ∈ rows, live r = true → answersTo key sqlWhere id r = false) :
    ∃ err, dbFirst live key sqlWhere rows id = .error err := by
  cases hd : dbFirst live key sqlWhere rows id with
  | error err => exact ⟨err, rfl⟩
  | ok r =>
    obtain ⟨hm, hl, ha⟩ := dbFirst_ok_mem live key sqlWhere rows id r hd
    rw [h r hm hl] at ha
    cases ha

theorem articleCreateDefaults_fields (req : Request) (article : Article) :
    (articleCreateDefaults req article).ID = article.ID ∧
    (articleCreateDefaults req article).Private =
      (if req.postForm.lookup "PrivateSelect" = some "1" then 1 else 0) ∧
    (req.PostForm "new_category" ≠ "" →
      (articleCreateDefaults req article).Category = req.PostForm "new_category") := by
  have hsel : req.PostForm "PrivateSelect" = "1" ↔
      req.postForm.lookup "PrivateSelect" = some "1" := by
    unfold Request.PostForm
    cases req.postForm.lookup "PrivateSelect" <;> simp
  unfold articleCreateDefaults
  by_cases hp : req.PostForm "PrivateSelect" = "1" <;>
    by_cases hn : req.PostForm "new_category" = "" <;>
    simp [hp, hn, ← hsel]

theorem articleUpdateFields_fields (req : Request) (rec : Article) :
    (articleUpdateFields req rec).ID = rec.ID ∧
    (articleUpdateFields req rec).Private =
      (if req.postForm.lookup "PrivateSelect" = some "1" then 1 else 0) ∧
    (req.PostForm "new_category" ≠ "" →
      (articleUpdateFields req rec).Category = req.PostForm "new_category") := by
  have hsel : req.PostForm "PrivateSelect" = "1" ↔
      req.postForm.lookup "PrivateSelect" = some "1" := by
    unfold Request.PostForm
    cases req.postForm.lookup "PrivateSelect" <;> simp
  unfold articleUpdateFields
  by_cases hp : req.PostForm "PrivateSelect" = "1" <;>
    by_cases hn : req.PostForm "new_category" = "" <;>
    simp [hp, hn, ← hsel]

/-- What `createRecord[Article]` does once the form is bound: one row is appended, equal to
the bound record after the article block up to the key and the timestamps. -/
theorem createRecordArticle_bound (bindModel : Form → GormModel → Except String GormModel)
    (render : Article → Rendered) (now : Nat) (req : Request) (db : DB) (c : Context)
    (record : Article) (hbind : bindArticle bindModel req.Form Article.zero = .ok record) :
    ∃ stored : Article,
      createRecordArticle bindModel render now req db c =
        ({ db with articles := db.articles ++ [stored] }, createResponse (render stored) c) ∧
      stored.Private = (articleCreateDefaults req record).Private ∧
      stored.Category = (articleCreateDefaults req record).Category := by
  have hID : (articleCreateDefaults req record).ID = 0 := by
    rw [(articleCreateDefaults_fields req record).1,
      bindArticle_ok bindModel req.Form Article.zero record hbind]
    rfl
  obtain ⟨createdRow, hrow⟩ : ∃ row : Article, row =
      { articleCreateDefaults req record with
        ID := nextID (db.articles.map (fun a => a.ID))
        Model := { (articleCreateDefaults req record).Model with
          CreatedAt := if (articleCreateDefaults req record).Model.CreatedAt = 0 then now
            else (articleCreateDefaults req record).Model.CreatedAt
          UpdatedAt := if (articleCreateDefaults req record).Model.UpdatedAt = 0 then now
            else (articleCreateDefaults req record).Model.UpdatedAt } } := ⟨_, rfl⟩
  have hres : createRecordArticle bindModel render now req db c =
      ({ db with articles := db.articles ++ [createdRow] },
        createResponse (render createdRow) c) := by
    simp only [createRecordArticle, hbind, dbCreateArticle, hID, hrow]
    simp
  exact ⟨createdRow, hres, by rw [hrow], by rw [hrow]⟩

/-- What `updateRecord[Article]` does once the row is loaded and the form is bound: the rows
with the loaded key are overwritten by one stored record. -/
theorem updateRecordArticle_bound (sqlWhere : String → Except String (Article → Bool))
    (bindModel : Form → GormModel → Except String GormModel) (now : Nat) (req : Request)
    (db : DB) (c : Context) (loaded record : Article)
    (hid : req.PostForm "ID" ≠ "")
    (hload : dbFirst Article.live (fun a => a.ID) sqlWhere db.articles (req.PostForm "ID")
      = .ok loaded)
    (hbind : bindArticle bindModel req.Form loaded = .ok record) :
    ∃ stored : Article,
      updateRecordArticle sqlWhere bindModel now req db c =
        ({ db with articles :=
            db.articles.map (fun a => if a.ID = loaded.ID then stored else a) },
          c.String 200 "Record updated successfully!") ∧
      stored ∈ (updateRecordArticle sqlWhere bindModel now req db c).1.articles ∧
      stored.ID = loaded.ID ∧
      stored.Private = (articleUpdateFields req record).Private ∧
      stored.Category = (articleUpdateFields req record).Category := by
  have hmem : loaded ∈ db.articles := (dbFirst_ok_mem _ _ _ _ _ _ hload).1
  have hID : (articleUpdateFields req record).ID = loaded.ID := by
    rw [(articleUpdateFields_fields req record).1,
      bindArticle_ok bindModel req.Form loaded record hbind]
  have hany : db.articles.any (fun a => a.ID == loaded.ID) = true := by
    rw [List.any_eq_true]
    exact ⟨loaded, hmem, by simp⟩
  have hres : updateRecordArticle sqlWhere bindModel now req db c =
      ({ db with articles := db.articles.map (fun a => if a.ID = loaded.ID then
          { articleUpdateFields req record with
            Model := { (articleUpdateFields req record).Model with UpdatedAt := now } }
          else a) },
        c.String 200 "Record updated successfully!") := by
    simp only [updateRecordArticle, hid, if_false, hload, hbind, dbSaveArticle, hID, hany,
      if_true]
  refine ⟨_, hres, ?_, hID, rfl, rfl⟩
  rw [hres]
  simp only [List.mem_map]
  exact ⟨loaded, hmem, by simp⟩

/-- C3: whenever the form binds, `createRecord[User]` appends exactly one user row whose
`Role` is `"Member"`, whatever the form carries under `Role`, and whose `RoleRequested` is the
submitted value (the first value of the key in the request's form, the empty string when the
key is absent); the response is the rendering of that row. -/
theorem createRecord_User_forces_Member
    (bindModel : Form → GormModel → Except String GormModel) (render : User → Rendered)
    (now : Nat) (req : Request) (db : DB) (c : Context) (record : User)
    (hbind : bindUser bindModel req.Form User.zero = .ok record) :
    ∃ stored : User,
      createRecordUser bindModel render now req db c =
        ({ db with users := db.users ++ [stored] }, createResponse (render stored) c) ∧
      stored.Role = "Member" ∧
      stored.RoleRequested = (req.Form.lookup "RoleRequested").getD "" ∧
      (∀ v, req.postForm.lookup "RoleRequested" = some v → stored.RoleRequested = v) := by
  obtain ⟨hID, hRR⟩ := bindUser_ok bindModel req.Form User.zero record hbind
  have hID0 : record.ID = 0 := hID
  obtain ⟨createdRow, hrow⟩ : ∃ row : User, row =
      { record with
        Role := "Member"
        ID := nextID (db.users.map (fun u => u.ID))
        Model := { record.Model with
          CreatedAt := if record.Model.CreatedAt = 0 then now else record.Model.CreatedAt
          UpdatedAt := if record.Model.UpdatedAt = 0 then now else record.Model.UpdatedAt } } :=
    ⟨_, rfl⟩
  have hres : createRecordUser bindModel render now req db c =
      ({ db with users := db.users ++ [createdRow] }, createResponse (render createdRow) c) := by
    simp only [createRecordUser, hbind, dbCreateUser, hID0, hrow]
    simp
  have hreq : createdRow.RoleRequested = (req.Form.lookup "RoleRequested").getD "" := by
    rw [hrow]
    exact hRR
  refine ⟨createdRow, hres, by rw [hrow], hreq, ?_⟩
  intro v hv
  rw [hreq]
  have : req.Form.lookup "RoleRequested" = some v := by
    unfold Request.Form
    generalize req.postForm = l at hv
    induction l with
    | nil => simp [List.lookup] at hv
    | cons p rest ih =>
      obtain ⟨k, w⟩ := p
      simp only [List.cons_append, List.lookup] at hv ⊢
      split
      · rename_i heq
        simp only [heq] at hv
        exact hv
      · rename_i hne
        simp only [hne] at hv
        exact ih hv
  rw [this]
  rfl

/-- Witness for C3: the sample registration asks for `Role=Admin` and is stored as a
`Member` with the requested role kept. -/
theorem createRecord_User_forces_Member_witness :
    ∃ stored : User,
      createRecordUser keepModel (fun _ => Rendered.html "ok") 50 registration sampleDB
          Context.fresh =
        ({ sampleDB with users := sampleDB.users ++ [stored] },
          createResponse (Rendered.html "ok") Context.fresh) ∧
      stored.Role = "Member" ∧ stored.RoleRequested = "Admin" :=
  match createRecord_User_forces_Member keepModel (fun _ => Rendered.html "ok") 50 registration
      sampleDB Context.fresh _ rfl with
  | ⟨stored, h1, h2, h3, _⟩ => ⟨stored, h1, h2, h3⟩

/-- C4: whenever the form binds (and, for the update, its `ID` names a row the lookup finds),
`createRecord[Article]` appends one row and `updateRecord[Article]` overwrites the looked-up
row, and in both the stored `Private` is 1 when the posted `PrivateSelect` is exactly `"1"`
and 0 otherwise, an absent selector included, whatever `Private` was before. -/
theorem Article_Private_from_selector
    (sqlWhere : String → Except String (Article → Bool))
    (bindModel : Form → GormModel → Except String GormModel) (render : Article → Rendered)
    (now : Nat) (req : Request) (db : DB) (c : Context) :
    (∀ record, bindArticle bindModel req.Form Article.zero = .ok record →
      ∃ stored : Article,
        (createRecordArticle bindModel render now req db c).1 =
          { db with articles := db.articles ++ [stored] } ∧
        stored.Private = (if req.postForm.lookup "PrivateSelect" = some "1" then 1 else 0)) ∧
    (∀ loaded record, req.PostForm "ID" ≠ "" →
      dbFirst Article.live (fun a => a.ID) sqlWhere db.articles (req.PostForm "ID")
        = .ok loaded →
      bindArticle bindModel req.Form loaded = .ok record →
      ∃ stored : Article,
        (updateRecordArticle sqlWhere bindModel now req db c).1 =
          { db with articles :=
              db.articles.map (fun a => if a.ID = loaded.ID then stored else a) } ∧
        stored ∈ (updateRecordArticle sqlWhere bindModel now req db c).1.articles ∧
        stored.ID = loaded.ID ∧
        stored.Private = (if req.postForm.lookup "PrivateSelect" = some "1" then 1 else 0)) := by
  constructor
  · intro record hbind
    obtain ⟨stored, h1, h2, _⟩ :=
      createRecordArticle_bound bindModel render now req db c record hbind
    exact ⟨stored, by rw [h1], h2.trans (articleCreateDefaults_fields req record).2.1⟩
  · intro loaded record hid hload hbind
    obtain ⟨stored, h1, h2, h3, h4, _⟩ :=
      updateRecordArticle_bound sqlWhere bindModel now req db c loaded record hid hload hbind
    exact ⟨stored, by rw [h1], h2, h3, h4.trans (articleUpdateFields_fields req record).2.1⟩

/-- Witness for C4: the sample form with `PrivateSelect=1` updates the public article 1, and
the form without a selector updates the private article 2. -/
theorem Article_Private_from_selector_witness :
    (∃ stored : Article,
      stored ∈ (updateRecordArticle rejectWhere keepModel 50 articleForm sampleDB
        Context.fresh).1.articles ∧ stored.ID = 1 ∧ stored.Private = 1) ∧
    (∃ stored : Article,
      stored ∈ (updateRecordArticle rejectWhere keepModel 50 articleFormPublic sampleDB
        Context.fresh).1.articles ∧ stored.ID = 2 ∧ stored.Private = 0) ∧
    (∃ stored : Article,
      (createRecordArticle keepModel (fun _ => Rendered.html "ok") 50 articleFormPublic sampleDB
        Context.fresh).1 = { sampleDB with articles := sampleDB.articles ++ [stored] } ∧
      stored.Private = 0) :=
  ⟨match (Article_Private_from_selector rejectWhere keepModel (fun _ => Rendered.html "ok") 50
      articleForm sampleDB Context.fresh).2 publicArticle _ (by decide) rfl rfl with
    | ⟨stored, _, h2, h3, h4⟩ => ⟨stored, h2, h3, h4⟩,
   match (Article_Private_from_selector rejectWhere keepModel (fun _ => Rendered.html "ok") 50
      articleFormPublic sampleDB Context.fresh).2 privateArticle _ (by decide) rfl
      rfl with
    | ⟨stored, _, h2, h3, h4⟩ => ⟨stored, h2, h3, h4⟩,
   match (Article_Private_from_selector rejectWhere keepModel (fun _ => Rendered.html "ok") 50
      articleFormPublic sampleDB Context.fresh).1 _ rfl with
    | ⟨stored, h1, h2⟩ => ⟨stored, h1, h2⟩⟩

/-- C5: whenever the form binds and posts a non-empty `new_category` (and, for the update,
its `ID` names a row the lookup finds), the row stored by `createRecord[Article]` and the row
stored by `updateRecord[Article]` have `Category` equal to the posted `new_category`,
whatever the form carries under `Category` and whatever the stored category was. -/
theorem Article_new_category_wins
    (sqlWhere : String → Except String (Article → Bool))
    (bindModel : Form → GormModel → Except String GormModel) (render : Article → Rendered)
    (now : Nat) (req : Request) (db : DB) (c : Context)
    (hnew : req.PostForm "new_category" ≠ "") :
    (∀ record, bindArticle bindModel req.Form Article.zero = .ok record →
      ∃ stored : Article,
        (createRecordArticle bindModel render now req db c).1 =
          { db with articles := db.articles ++ [stored] } ∧
        stored.Category = req.PostForm "new_category") ∧
    (∀ loaded record, req.PostForm "ID" ≠ "" →
      dbFirst Article.live (fun a => a.ID) sqlWhere db.articles (req.PostForm "ID")
        = .ok loaded →
      bindArticle bindModel req.Form loaded = .ok record →
      ∃ stored : Article,
        (updateRecordArticle sqlWhere bindModel now req db c).1 =
          { db with articles :=
              db.articles.map (fun a => if a.ID = loaded.ID then stored else a) } ∧
        stored ∈ (updateRecordArticle sqlWhere bindModel now req db c).1.articles ∧
        stored.ID = loaded.ID ∧
        stored.Category = req.PostForm "new_category") := by
  constructor
  · intro record hbind
    obtain ⟨stored, h1, _, h3⟩ :=
      createRecordArticle_bound bindModel render now req db c record hbind
    exact ⟨stored, by rw [h1], h3.trans ((articleCreateDefaults_fields req record).2.2 hnew)⟩
  · intro loaded record hid hload hbind
    obtain ⟨stored, h1, h2, h3, _, h5⟩ :=
      updateRecordArticle_bound sqlWhere bindModel now req db c loaded record hid hload hbind
    exact ⟨stored, by rw [h1], h2, h3,
      h5.trans ((articleUpdateFields_fields req record).2.2 hnew)⟩

/-- Witness for C5: the sample form selects `News` and types the new category `Plans`. -/
theorem Article_new_category_wins_witness :
    articleForm.PostForm "Category" = "News" ∧
    (∃ stored : Article,
      (createRecordArticle keepModel (fun _ => Rendered.html "ok") 50 articleForm sampleDB
        Context.fresh).1 = { sampleDB with articles := sampleDB.articles ++ [stored] } ∧
      stored.Category = "Plans") ∧
    (∃ stored : Article,
      stored ∈ (updateRecordArticle rejectWhere keepModel 50 articleForm sampleDB
        Context.fresh).1.articles ∧ stored.ID = 1 ∧ stored.Category = "Plans") :=
  have h := Article_new_category_wins rejectWhere keepModel (fun _ => Rendered.html "ok") 50
    articleForm sampleDB Context.fresh (by decide)
  ⟨by decide,
   match h.1 _ rfl with
    | ⟨stored, h1, h2⟩ => ⟨stored, h1, h2⟩,
   match h.2 publicArticle _ (by decide) rfl rfl with
    | ⟨stored, _, h2, h3, h4⟩ => ⟨stored, h2, h3, h4⟩⟩

/-- C6: `updateRecord` (at `Article` and at `User`) answers 400 with the database returned
as it was, by a response that does not depend on the database, when the posted `ID` is absent
or empty; and answers 404 with the database returned as it was when `ID` is non-empty and no
visible row answers to it. -/
theorem updateRecord_missing_or_unknown_id
    (whereArticle : String → Except String (Article → Bool))
    (whereUser : String → Except String (User → Bool))
    (bindModel : Form → GormModel → Except String GormModel) (now : Nat) (req : Request)
    (db : DB) (c : Context) :
    (req.postForm.lookup "ID" = none ∨ req.postForm.lookup "ID" = some "" →
      updateRecordArticle whereArticle bindModel now req db c
        = (db, { c with status := some 400, body := c.body ++ "Missing ID" }) ∧
      updateRecordUser whereUser bindModel now req db c
        = (db, { c with status := some 400, body := c.body ++ "Missing ID" })) ∧
    (req.PostForm "ID" ≠ "" →
      (∀ a ∈ db.articles, a.live = true →
        answersTo (fun a => a.ID) whereArticle (req.PostForm "ID") a = false) →
      (updateRecordArticle whereArticle bindModel now req db c).1 = db ∧
      (updateRecordArticle whereArticle bindModel now req db c).2.status = some 404) ∧
    (req.PostForm "ID" ≠ "" →
      (∀ u ∈ db.users, u.live = true →
        answersTo (fun u => u.ID) whereUser (req.PostForm "ID") u = false) →
      (updateRecordUser whereUser bindModel now req db c).1 = db ∧
      (updateRecordUser whereUser bindModel now req db c).2.status = some 404) := by
  refine ⟨?_, ?_, ?_⟩
  · intro h
    have hid : req.PostForm "ID" = "" := by
      unfold Request.PostForm
      rcases h with h | h <;> simp [h]
    simp [updateRecordArticle, updateRecordUser, hid, Context.String]
  · intro hid hno
    obtain ⟨err, herr⟩ := dbFirst_error Article.live (fun a => a.ID) whereArticle db.articles
      (req.PostForm "ID") hno
    simp [updateRecordArticle, hid, herr, Context.String]
  · intro hid hno
    obtain ⟨err, herr⟩ := dbFirst_error User.live (fun u => u.ID) whereUser db.users
      (req.PostForm "ID") hno
    simp [updateRecordUser, hid, herr, Context.String]

/-- Witness for C6: a form without `ID`, and a form whose `ID` is 7 on the sample database. -/
theorem updateRecord_missing_or_unknown_id_witness :
    (updateRecordArticle rejectWhere keepModel 50 ⟨[], [("Title", "x")]⟩ sampleDB Context.fresh
      = (sampleDB, { Context.fresh with status := some 400, body := "Missing ID" })) ∧
    ((updateRecordArticle rejectWhere keepModel 50 ⟨[], [("ID", "7"), ("Title", "x")]⟩ sampleDB
        Context.fresh).1 = sampleDB ∧
      (updateRecordArticle rejectWhere keepModel 50 ⟨[], [("ID", "7"), ("Title", "x")]⟩ sampleDB
        Context.fresh).2.status = some 404) ∧
    ((updateRecordUser rejectWhere keepModel 50 ⟨[], [("ID", "7")]⟩ sampleDB
        Context.fresh).1 = sampleDB ∧
      (updateRecordUser rejectWhere keepModel 50 ⟨[], [("ID", "7")]⟩ sampleDB
        Context.fresh).2.status = some 404) :=
  ⟨((updateRecord_missing_or_unknown_id rejectWhere rejectWhere keepModel 50
      ⟨[], [("Title", "x")]⟩ sampleDB Context.fresh).1 (Or.inl (by decide))).1,
   (updateRecord_missing_or_unknown_id rejectWhere rejectWhere keepModel 50
      ⟨[], [("ID", "7"), ("Title", "x")]⟩ sampleDB Context.fresh).2.1 (by decide) (by decide),
   (updateRecord_missing_or_unknown_id rejectWhere rejectWhere keepModel 50
      ⟨[], [("ID", "7")]⟩ sampleDB Context.fresh).2.2 (by decide) (by decide)⟩

/-! ### Schema reflection and the edit form -/

theorem extractFields_fold (excludeFields : List String) (t : List StructField)
    (acc : List FieldDescriptor) :
    t.foldl (fun fields field =>
      match describeField excludeFields field with
      | none => fields
      | some d => fields ++ [d]) acc = acc ++ t.filterMap (describeField excludeFields) := by
  induction t generalizing acc with
  | nil => simp
  | cons f rest ih =>
    simp only [List.foldl_cons, List.filterMap_cons]
    cases hd : describeField excludeFields f with
    | none => simp only [ih]
    | some d => simp only [ih, List.append_assoc, List.singleton_append]

theorem extractFields_eq_filterMap (t : List StructField) (excludeFields : List String) :
    extractFields t excludeFields = t.filterMap (describeField excludeFields) := by
  unfold extractFields
  rw [extractFields_fold]
  rfl

theorem splitComma_head (cs : List Char) :
    (splitComma cs).headD [] = cs.takeWhile (fun ch => ch ≠ ',') := by
  induction cs with
  | nil => rfl
  | cons ch rest ih =>
    by_cases hc : ch = ','
    · simp [splitComma, hc]
    · simp only [splitComma, hc, if_false, ne_eq, not_false_eq_true, decide_True,
        List.takeWhile_cons_of_pos]
      cases hs : splitComma rest with
      | nil =>
        rw [hs] at ih
        simp only [List.headD_nil] at ih
        rw [← ih]
        rfl
      | cons part parts =>
        rw [hs] at ih
        simp only [List.headD_cons] at ih
        rw [← ih]
        rfl

theorem formParts_head (formTag : String) :
    (formParts formTag).headD "" = beforeFirstComma formTag := by
  unfold formParts beforeFirstComma
  rw [← splitComma_head]
  cases splitComma formTag.data with
  | nil => rfl
  | cons part parts => rfl

/-- C9: `extractFields` returns, in declaration order, one descriptor for each field that is
not embedded, not excluded and whose form tag is neither `-` nor `Private_ui_only`, and
nothing else; the descriptor's name is the form tag up to its first comma (the field name
for an empty tag), its label is the label tag (the field name for an empty tag), and it has
no `value` key.  `Article` without exclusions and `User` with `Role` excluded give the
listed names. -/
theorem extractFields_descriptors (t : List StructField) (excludeFields : List String) :
    (extractFields t excludeFields).map (fun d => (d.name, d.label, d.value)) =
      (t.filter (fun f => !f.Anonymous && decide (f.Name ∉ excludeFields) &&
          decide (f.formTag ≠ "-") && decide (f.formTag ≠ "Private_ui_only"))).map
        (fun f =>
          (if f.formTag = "" then f.Name else beforeFirstComma f.formTag,
           if f.labelTag = "" then f.Name else f.labelTag,
           none)) ∧
    (extractFields ArticleType []).map (fun d => d.name) =
      ["Title", "Summary", "Content", "Category", "PrivateSelect"] ∧
    (extractFields UserType ["Role"]).map (fun d => d.name) =
      ["FirstName", "LastName", "Pseudonym", "Mail", "RoleRequested", "Password"] := by
  refine ⟨?_, by decide, by decide⟩
  rw [extractFields_eq_filterMap]
  induction t with
  | nil => rfl
  | cons f rest ih =>
    simp only [List.filterMap_cons, List.filter_cons]
    by_cases h1 : f.Anonymous = true ∨ f.Name ∈ excludeFields
    · have hk : (!f.Anonymous && decide (f.Name ∉ excludeFields) &&
          decide (f.formTag ≠ "-") && decide (f.formTag ≠ "Private_ui_only")) = false := by
        rcases h1 with h | h <;> simp [h]
      simp only [describeField, h1, if_true, hk]
      exact ih
    · by_cases h2 : f.formTag = "-" ∨ f.formTag = "Private_ui_only"
      · have hk : (!f.Anonymous && decide (f.Name ∉ excludeFields) &&
            decide (f.formTag ≠ "-") && decide (f.formTag ≠ "Private_ui_only")) = false := by
          rcases h2 with h | h <;> simp [h]
        simp only [describeField, h1, h2, if_true, if_false, hk]
        exact ih
      · have hk : (!f.Anonymous && decide (f.Name ∉ excludeFields) &&
            decide (f.formTag ≠ "-") && decide (f.formTag ≠ "Private_ui_only")) = true := by
          simp only [not_or] at h1 h2
          simp [h1.1, h1.2, h2.1, h2.2]
        simp only [describeField, h1, h2, if_false, hk, if_true, List.map_cons, ih]
        congr 1
        have hhead := formParts_head f.formTag
        by_cases h3 : f.formTag = "" <;> by_cases h4 : f.labelTag = "" <;>
          first
          | (simp [h3, h4]; done)
          | (simp [h3, h4]; simpa using hhead)

theorem extractFields_ArticleType :
    extractFields ArticleType [] =
      [⟨"Title", "text", "Title", none⟩, ⟨"Summary", "textarea", "Summary", none⟩,
       ⟨"Content", "textarea", "Content", none⟩, ⟨"Category", "text", "Category", none⟩,
       ⟨"PrivateSelect", "text", "Private", none⟩] := by
  decide

theorem extractFields_UserType :
    extractFields UserType [] =
      [⟨"FirstName", "text", "First Name", none⟩, ⟨"LastName", "text", "Last Name", none⟩,
       ⟨"Pseudonym", "text", "Pseudonym", none⟩, ⟨"Mail", "text", "Email Address", none⟩,
       ⟨"RoleRequested", "text", "User Role (Requested)", none⟩,
       ⟨"Role", "text", "User Role (Attributed)", none⟩,
       ⟨"Password", "text", "Password", none⟩] := by
  decide

/-- C10 fails as stated: in the edit form of the private sample article the descriptor of the
`Private` attribute, named `PrivateSelect`, has no `value` key, and no descriptor carries the
rendering `"1"` of the stored `Private`. -/
theorem editForm_Private_has_no_value :
    dbFirst Article.live (fun a => a.ID) rejectWhere sampleDB.articles "2" = .ok privateArticle ∧
    privateArticle.Private = 1 ∧
    (editContextArticle (fun _ => "") "2" privateArticle).fields.map
        (fun d => (d.name, d.label, d.value)) =
      [("Title", "Title", some "Plans"), ("Summary", "Summary", some "Internal wiki plans"),
       ("Content", "Content", some "Secret"), ("Category", "Category", some "Staff"),
       ("PrivateSelect", "Private", none)] ∧
    ¬ ∃ d ∈ (editContextArticle (fun _ => "") "2" privateArticle).fields,
        d.value = some (toString privateArticle.Private) := by
  refine ⟨rfl, rfl, by decide, by decide⟩

/-- C10, amended: for a stored `Article` the edit form carries, for `Title`, `Summary`,
`Content` and `Category`, a descriptor whose `value` is the stored text; the descriptor of
`Private`, named `PrivateSelect`, has no `value` key, and the stored `Private` is supplied in
decimal by the context key `PrivateSelect`.  For a stored `User` every form attribute,
`Role` included, has a descriptor whose `value` is the stored text. -/
theorem editForm_prefill (whereArticle : String → Except String (Article → Bool))
    (whereUser : String → Except String (User → Bool)) (fmtOther : GoValue → String)
    (exec : EditContext → String) (db : DB) (id : String) (c : Context) :
    (∀ record, dbFirst Article.live (fun a => a.ID) whereArticle db.articles id = .ok record →
      record ∈ db.articles ∧
      generateEditFormArticle whereArticle fmtOther (.ok exec) db id c =
        c.String 200 (exec (editContextArticle fmtOther id record)) ∧
      (editContextArticle fmtOther id record).fields.map (fun d => (d.name, d.value)) =
        [("Title", some record.Title), ("Summary", some record.Summary),
         ("Content", some record.Content), ("Category", some record.Category),
         ("PrivateSelect", none)] ∧
      (editContextArticle fmtOther id record).PrivateSelect = some (toString record.Private)) ∧
    (∀ record, dbFirst User.live (fun u => u.ID) whereUser db.users id = .ok record →
      record ∈ db.users ∧
      generateEditFormUser whereUser fmtOther (.ok exec) db id c =
        c.String 200 (exec (editContextUser fmtOther id record)) ∧
      (editContextUser fmtOther id record).fields.map (fun d => (d.name, d.value)) =
        [("FirstName", some record.FirstName), ("LastName", some record.LastName),
         ("Pseudonym", some record.Pseudonym), ("Mail", some record.Mail),
         ("RoleRequested", some record.RoleRequested), ("Role", some record.Role),
         ("Password", some record.Password)]) := by
  constructor
  · intro record h
    refine ⟨(dbFirst_ok_mem _ _ _ _ _ _ h).1, ?_, ?_, rfl⟩
    · simp only [generateEditFormArticle, h]
    · simp only [editContextArticle, extractFields_ArticleType]
      rfl
  · intro record h
    refine ⟨(dbFirst_ok_mem _ _ _ _ _ _ h).1, ?_, ?_⟩
    · simp only [generateEditFormUser, h]
    · simp only [editContextUser, extractFields_UserType]
      rfl

/-- Witness for C10: the edit forms of the sample article 2 and of the sample user 2. -/
theorem editForm_prefill_witness :
    ((editContextArticle (fun _ => "") "2" privateArticle).fields.map
        (fun d => (d.name, d.value)) =
      [("Title", some "Plans"), ("Summary", some "Internal wiki plans"),
       ("Content", some "Secret"), ("Category", some "Staff"), ("PrivateSelect", none)] ∧
      (editContextArticle (fun _ => "") "2" privateArticle).PrivateSelect = some "1") ∧
    (editContextUser (fun _ => "") "2" bob).fields.map (fun d => (d.name, d.value)) =
      [("FirstName", some "Bob"), ("LastName", some "Burns"), ("Pseudonym", some "bob"),
       ("Mail", some "bob@example.org"), ("RoleRequested", some "Editor"),
       ("Role", some "Member"), ("Password", some "pw2")] :=
  have h := editForm_prefill rejectWhere rejectWhere (fun _ => "") (fun _ => "") sampleDB "2"
    Context.fresh
  ⟨⟨(h.1 privateArticle rfl).2.2.1, (h.1 privateArticle rfl).2.2.2⟩, (h.2 bob rfl).2.2⟩

/-! ### The grouping loop -/

theorem groupAppend_keys {E : Type} (m : List (String × List E)) (key : String) (e : E) :
    (groupAppend m key e).map Prod.fst =
      if key ∈ m.map Prod.fst then m.map Prod.fst else m.map Prod.fst ++ [key] := by
  induction m with
  | nil => simp [groupAppend]
  | cons p rest ih =>
    obtain ⟨k, es⟩ := p
    by_cases hk : k = key
    · simp [groupAppend, hk]
    · have hk2 : ¬ key = k := fun h => hk h.symm
      simp only [groupAppend, hk, if_false, List.map_cons, ih, List.mem_cons, hk2, false_or]
      split <;> simp

theorem groupAppend_keys_nodup {E : Type} (m : List (String × List E)) (key : String) (e : E)
    (hn : (m.map Prod.fst).Nodup) : ((groupAppend m key e).map Prod.fst).Nodup := by
  rw [groupAppend_keys]
  split
  · exact hn
  · rename_i hnot
    rw [List.nodup_append]
    refine ⟨hn, List.nodup_singleton _, ?_⟩
    intro a ha hb
    simp only [List.mem_singleton] at hb
    exact hnot (hb ▸ ha)

theorem mem_groupAppend_iff {E : Type} (m : List (String × List E)) (key : String) (e : E)
    (hn : (m.map Prod.fst).Nodup) (k : String) (es : List E) :
    (k, es) ∈ groupAppend m key e ↔
      (k ≠ key ∧ (k, es) ∈ m) ∨
      (k = key ∧ ((∃ es0, (key, es0) ∈ m ∧ es = es0 ++ [e]) ∨
        (key ∉ m.map Prod.fst ∧ es = [e]))) := by
  induction m with
  | nil => simp [groupAppend]
  | cons p rest ih =>
    obtain ⟨k0, es0⟩ := p
    simp only [List.map_cons, List.nodup_cons] at hn
    obtain ⟨hnot, hrest⟩ := hn
    have ih := ih hrest
    by_cases hk : k0 = key
    · subst hk
      have hnone : ∀ es1, (k0, es1) ∉ rest := fun es1 h =>
        hnot (List.mem_map_of_mem Prod.fst h)
      simp only [groupAppend, if_true]
      constructor
      · intro h
        rcases List.mem_cons.mp h with hhead | htail
        · obtain ⟨h1, h2⟩ := Prod.mk.inj hhead
          exact Or.inr ⟨h1, Or.inl ⟨es0, List.mem_cons_self _ _, h2⟩⟩
        · by_cases hkk : k = k0
          · rw [hkk] at htail
            exact absurd htail (hnone es)
          · exact Or.inl ⟨hkk, List.mem_cons_of_mem _ htail⟩
      · rintro (⟨h1, h2⟩ | ⟨h1, ⟨es1, h2, h3⟩ | ⟨h2, _⟩⟩)
        · rcases List.mem_cons.mp h2 with h | h
          · exact absurd (Prod.mk.inj h).1 h1
          · exact List.mem_cons_of_mem _ h
        · rcases List.mem_cons.mp h2 with h | h
          · rw [h1, h3, (Prod.mk.inj h).2]
            exact List.mem_cons_self _ _
          · exact absurd h (hnone es1)
        · exact absurd (List.mem_cons_self _ _) h2
    · have hk2 : ¬ key = k0 := fun h => hk h.symm
      simp only [groupAppend, hk, if_false]
      constructor
      · intro h
        rcases List.mem_cons.mp h with h | h
        · obtain ⟨h1, _⟩ := Prod.mk.inj h
          refine Or.inl ⟨fun hh => hk (h1.symm.trans hh), ?_⟩
          rw [h]
          exact List.mem_cons_self _ _
        · rcases ih.mp h with ⟨h1, h2⟩ | ⟨h1, ⟨es1, h2, h3⟩ | ⟨h2, h3⟩⟩
          · exact Or.inl ⟨h1, List.mem_cons_of_mem _ h2⟩
          · exact Or.inr ⟨h1, Or.inl ⟨es1, List.mem_cons_of_mem _ h2, h3⟩⟩
          · refine Or.inr ⟨h1, Or.inr ⟨?_, h3⟩⟩
            intro hm
            rcases List.mem_cons.mp hm with hm | hm
            · exact hk2 hm
            · exact h2 hm
      · rintro (⟨h1, h2⟩ | ⟨h1, ⟨es1, h2, h3⟩ | ⟨h2, h3⟩⟩)
        · rcases List.mem_cons.mp h2 with h | h
          · rw [h]
            exact List.mem_cons_self _ _
          · exact List.mem_cons_of_mem _ (ih.mpr (Or.inl ⟨h1, h⟩))
        · rcases List.mem_cons.mp h2 with h | h
          · exact absurd (Prod.mk.inj h).1 hk2
          · exact List.mem_cons_of_mem _ (ih.mpr (Or.inr ⟨h1, Or.inl ⟨es1, h, h3⟩⟩))
        · exact List.mem_cons_of_mem _
            (ih.mpr (Or.inr ⟨h1, Or.inr ⟨fun hm => h2 (List.mem_cons_of_mem _ hm), h3⟩⟩))

theorem groupAppend_flatten_perm {E : Type} (m : List (String × List E)) (key : String)
    (e : E) :
    ((groupAppend m key e).map Prod.snd).flatten.Perm ((m.map Prod.snd).flatten ++ [e]) := by
  induction m with
  | nil => simp [groupAppend]
  | cons p rest ih =>
    obtain ⟨k, es⟩ := p
    by_cases hk : k = key
    · simp only [groupAppend, hk, if_true, List.map_cons, List.flatten_cons, List.append_assoc]
      exact List.Perm.append_left es List.perm_append_comm
    · simp only [groupAppend, hk, if_false, List.map_cons, List.flatten_cons, List.append_assoc]
      exact List.Perm.append_left es ih

theorem groupArticles_snoc (fmt : Nat → String) (articles : List Article) (a : Article) :
    groupArticles fmt (articles ++ [a]) =
      groupAppend (groupArticles fmt articles) a.Category (groupedEntry fmt a) := by
  simp [groupArticles, List.foldl_append]

theorem groupArticles_groups (fmt : Nat → String) (articles : List Article) :
    ((groupArticles fmt articles).map Prod.fst).Nodup ∧
    ∀ k es, (k, es) ∈ groupArticles fmt articles ↔
      es = (articles.filter (fun a => a.Category = k)).map (groupedEntry fmt) ∧ es ≠ [] := by
  induction articles using List.reverseRecOn with
  | nil => simp [groupArticles]
  | append_singleton as a ih =>
    obtain ⟨hn, hmem⟩ := ih
    rw [groupArticles_snoc]
    refine ⟨groupAppend_keys_nodup _ _ _ hn, ?_⟩
    intro k es
    rw [mem_groupAppend_iff _ _ _ hn]
    by_cases hk : k = a.Category
    · subst hk
      have hkey : a.Category ∈ (groupArticles fmt as).map Prod.fst ↔
          (as.filter (fun b => b.Category = a.Category)).map (groupedEntry fmt) ≠ [] := by
        constructor
        · intro h
          obtain ⟨⟨k1, es1⟩, h1, h2⟩ := List.mem_map.mp h
          simp only at h2
          rw [h2] at h1
          have := (hmem a.Category es1).mp h1
          rw [← this.1]
          exact this.2
        · intro h
          exact List.mem_map_of_mem Prod.fst ((hmem a.Category _).mpr ⟨rfl, h⟩)
      simp only [ne_eq, not_true_eq_false, false_and, true_and, false_or, List.filter_append,
        List.map_append, List.filter_cons, decide_True, if_true, List.filter_nil, List.map_cons,
        List.map_nil]
      constructor
      · rintro (⟨es0, h1, h2⟩ | ⟨h1, h2⟩)
        · rw [h2, ((hmem _ _).mp h1).1]
          exact ⟨rfl, by simp⟩
        · have hnil : (as.filter (fun b => b.Category = a.Category)).map (groupedEntry fmt)
              = [] := by
            by_contra hne
            exact h1 (hkey.mpr hne)
          rw [h2, hnil]
          exact ⟨rfl, by simp⟩
      · rintro ⟨h1, _⟩
        by_cases hne : (as.filter (fun b => b.Category = a.Category)).map (groupedEntry fmt)
            = []
        · refine Or.inr ⟨fun h => (hkey.mp h) hne, ?_⟩
          rw [h1, hne]
          rfl
        · exact Or.inl ⟨_, (hmem _ _).mpr ⟨rfl, hne⟩, h1⟩
    · have hk2 : ¬ a.Category = k := fun h => hk h.symm
      simp only [ne_eq, hk, not_false_eq_true, true_and, false_and, or_false, hmem,
        List.filter_append, List.filter_cons, hk2, decide_False, List.filter_nil,
        List.append_nil]
      simp

theorem groupArticles_flatten (fmt : Nat → String) (articles : List Article) :
    ((groupArticles fmt articles).map Prod.snd).flatten.Perm
      (articles.map (groupedEntry fmt)) := by
  induction articles using List.reverseRecOn with
  | nil => simp [groupArticles]
  | append_singleton as a ih =>
    rw [groupArticles_snoc, List.map_append]
    exact (groupAppend_flatten_perm _ _ _).trans (List.Perm.append_right _ ih)

/-- C11: the grouping loop of `getArticles` partitions the fetched list by `Category`: the
keys of the mapping are distinct; a pair of a key and a group is in the mapping exactly when
the group is the fetched list filtered to that category, in the fetched order, and is not
empty; every fetched article has its entry in the group under its own category, and every
entry of a group has the group's key as its category; all groups together hold the entries of
the fetched list, each as often as it was fetched; and the list the loop runs over is the one
the listing query returned. -/
theorem grouping_is_partition (fmt : Nat → String) (articles : List Article) :
    ((groupArticles fmt articles).map Prod.fst).Nodup ∧
    (∀ k es, (k, es) ∈ groupArticles fmt articles ↔
      es = (articles.filter (fun a => a.Category = k)).map (groupedEntry fmt) ∧ es ≠ []) ∧
    (∀ a ∈ articles, ∃ es, (a.Category, es) ∈ groupArticles fmt articles ∧
      groupedEntry fmt a ∈ es) ∧
    (∀ k es e, (k, es) ∈ groupArticles fmt articles → e ∈ es → e.Category = k) ∧
    ((groupArticles fmt articles).map Prod.snd).flatten.Perm
      (articles.map (groupedEntry fmt)) ∧
    (∀ (like : String → String → Bool) (db : DB) (search : String) (c : Context),
      (getArticlesContext like fmt db search c).grouped_articles =
        groupArticles fmt (fetchArticles like db (listingRole c) search)) := by
  obtain ⟨hn, hmem⟩ := groupArticles_groups fmt articles
  refine ⟨hn, hmem, ?_, ?_, groupArticles_flatten fmt articles, fun _ _ _ _ => rfl⟩
  · intro a ha
    have hin : groupedEntry fmt a ∈
        (articles.filter (fun b => b.Category = a.Category)).map (groupedEntry fmt) :=
      List.mem_map_of_mem _ (List.mem_filter.mpr ⟨ha, by simp⟩)
    exact ⟨_, (hmem a.Category _).mpr ⟨rfl, List.ne_nil_of_mem hin⟩, hin⟩
  · intro k es e hk he
    rw [((hmem k es).mp hk).1] at he
    obtain ⟨b, hb, hbe⟩ := List.mem_map.mp he
    have hcat : b.Category = k := by simpa using (List.mem_filter.mp hb).2
    rw [← hbe]
    exact hcat

/-- Witness for C11: two articles of category `News` around one of category `Staff`. -/
theorem grouping_is_partition_witness :
    ("News", [groupedEntry (fun _ => "t") publicArticle, groupedEntry (fun _ => "t") newsArticle])
        ∈ groupArticles (fun _ => "t") [publicArticle, privateArticle, newsArticle] ∧
    ∃ es, ("Staff", es) ∈ groupArticles (fun _ => "t")
        [publicArticle, privateArticle, newsArticle] ∧
      groupedEntry (fun _ => "t") privateArticle ∈ es :=
  have h := grouping_is_partition (fun _ => "t") [publicArticle, privateArticle, newsArticle]
  ⟨(h.2.1 "News" _).mpr ⟨by decide, by decide⟩, h.2.2.1 privateArticle (by decide)⟩

end EkoWiki
